import Mathlib

set_option maxRecDepth 8000

/-!
Verification of the line-classification engine of `sloc` (sloc.go).

The scanner state, the per-byte step and the per-file `Update` are shallow
embeddings of `Language.Update` (sloc.go lines 113-179); bytes are `Nat`,
marker strings are `List Nat` of byte values.
-/

/-- Comment syntax descriptor, mirroring `type Commenter struct` in sloc.go.
Marker strings are byte lists. -/
structure Commenter where
  LineComment : List Nat
  StartComment : List Nat
  EndComment : List Nat
  Nesting : Bool
deriving DecidableEq, Repr

/-- Per-language accumulated statistics, mirroring `type Stats struct`. -/
structure Stats where
  FileCount : Nat
  TotalLines : Nat
  CodeLines : Nat
  BlankLines : Nat
  CommentLines : Nat
deriving DecidableEq, Repr

/-- The loop-local scan state of `Language.Update`: block-comment depth
`inComment`, line-comment flag `inLComment`, blank-line flag `blank`, and
the three partial-match cursors `lp`, `sp`, `ep`. -/
structure ScanState where
  inComment : Nat
  inLComment : Bool
  blank : Bool
  lp : Nat
  sp : Nat
  ep : Nat
deriving DecidableEq, Repr

/-- Guard of the line-comment matcher: `inComment == 0 && b == lc[lp]`
(sloc.go line 125).  The index is totalized with `get?`; a successful
match implies the cursor is in bounds. -/
def lineHit (l : Commenter) (s : ScanState) (b : Nat) : Prop :=
  s.inComment = 0 ∧ l.LineComment.get? s.lp = some b

instance (l : Commenter) (s : ScanState) (b : Nat) : Decidable (lineHit l s b) := by
  unfold lineHit; infer_instance

/-- New value of cursor `lp` after one byte (sloc.go lines 125-133). -/
def newLp (l : Commenter) (s : ScanState) (b : Nat) : Nat :=
  if lineHit l s b then
    if s.lp + 1 = l.LineComment.length then 0 else s.lp + 1
  else 0

/-- New value of `inLComment` after one byte (sloc.go lines 125-133). -/
def newInL (l : Commenter) (s : ScanState) (b : Nat) : Bool :=
  if lineHit l s b then
    if s.lp + 1 = l.LineComment.length then true else s.inLComment
  else s.inLComment

/-- Guard of the block-start matcher: `!inLComment && b == sc[sp]`
(sloc.go line 134), where `inLComment` is the value already updated by the
line matcher in the same iteration. -/
def startHit (l : Commenter) (s : ScanState) (b : Nat) : Prop :=
  newInL l s b = false ∧ l.StartComment.get? s.sp = some b

instance (l : Commenter) (s : ScanState) (b : Nat) : Decidable (startHit l s b) := by
  unfold startHit; infer_instance

/-- New value of cursor `sp` after one byte (sloc.go lines 134-145). -/
def newSp (l : Commenter) (s : ScanState) (b : Nat) : Nat :=
  if startHit l s b then
    if s.sp + 1 = l.StartComment.length then 0 else s.sp + 1
  else 0

/-- Value of `inComment` after the block-start matcher ran (sloc.go lines
136-140): on a completed match increment, clamping to 1 when not nesting. -/
def icAfterStart (l : Commenter) (s : ScanState) (b : Nat) : Nat :=
  if startHit l s b ∧ s.sp + 1 = l.StartComment.length then
    if 1 < s.inComment + 1 ∧ l.Nesting = false then 1 else s.inComment + 1
  else s.inComment

/-- Guard of the block-end matcher: `!inLComment && inComment > 0 && b == ec[ep]`
(sloc.go line 146), using the depth already updated by the start matcher. -/
def endHit (l : Commenter) (s : ScanState) (b : Nat) : Prop :=
  newInL l s b = false ∧ 0 < icAfterStart l s b ∧ l.EndComment.get? s.ep = some b

instance (l : Commenter) (s : ScanState) (b : Nat) : Decidable (endHit l s b) := by
  unfold endHit; infer_instance

/-- New value of cursor `ep` after one byte (sloc.go lines 146-156). -/
def newEp (l : Commenter) (s : ScanState) (b : Nat) : Nat :=
  if endHit l s b then
    if s.ep + 1 = l.EndComment.length then 0 else s.ep + 1
  else 0

/-- Value of `inComment` after the block-end matcher ran (sloc.go lines
148-152): on a completed match decrement (guarded, as in the source). -/
def newIc (l : Commenter) (s : ScanState) (b : Nat) : Nat :=
  if endHit l s b ∧ s.ep + 1 = l.EndComment.length then
    if 0 < icAfterStart l s b then icAfterStart l s b - 1 else icAfterStart l s b
  else icAfterStart l s b

/-- New value of `blank` after one byte (sloc.go lines 158-160): any byte
other than space, tab, newline, carriage return marks the line non-blank. -/
def newBlank (l : Commenter) (s : ScanState) (b : Nat) : Bool :=
  if b = 32 ∨ b = 9 ∨ b = 10 ∨ b = 13 then s.blank else false

/-- The three concurrent matchers plus blank tracking applied to one byte:
the body of the scan loop before line finalization (sloc.go lines 124-160). -/
def matcherStep (l : Commenter) (s : ScanState) (b : Nat) : ScanState :=
  ⟨newIc l s b, newInL l s b, newBlank l s b, newLp l s b, newSp l s b, newEp l s b⟩

/-- One full loop iteration of `Language.Update` (sloc.go lines 124-178):
the matchers run, then on a newline byte the line is finalized — comment
state is checked first, then blank, then code — and `blank` is reset. -/
def step (l : Commenter) (st : ScanState × Stats) (b : Nat) : ScanState × Stats :=
  let s := matcherStep l st.1 b
  if b = 10 then
    if 0 < s.inComment ∨ s.inLComment = true then
      ({ s with inLComment := false, blank := true },
       { st.2 with TotalLines := st.2.TotalLines + 1,
                   CommentLines := st.2.CommentLines + 1 })
    else if s.blank = true then
      ({ s with blank := true },
       { st.2 with TotalLines := st.2.TotalLines + 1,
                   BlankLines := st.2.BlankLines + 1 })
    else
      ({ s with blank := true },
       { st.2 with TotalLines := st.2.TotalLines + 1,
                   CodeLines := st.2.CodeLines + 1 })
  else
    (s, st.2)

/-- The scan loop folded over the whole byte sequence. -/
def scan (l : Commenter) (c : List Nat) (st : ScanState × Stats) : ScanState × Stats :=
  c.foldl (step l) st

/-- Initial scan state of `Language.Update` (sloc.go lines 116-122):
depth 0, not in a line comment, line blank so far, all cursors 0. -/
def initState : ScanState := ⟨0, false, true, 0, 0, 0⟩

/-- All-zero statistics record. -/
def stats0 : Stats := ⟨0, 0, 0, 0, 0⟩

/-- `Language.Update` (sloc.go lines 113-179): bump the file count, then
scan the content from a fresh scan state, accumulating into `s`. -/
def Update (l : Commenter) (c : List Nat) (s : Stats) : Stats :=
  (scan l c (initState, { s with FileCount := s.FileCount + 1 })).2

/-- Byte list of an ASCII string literal. -/
def strBytes (s : String) : List Nat :=
  s.toList.map Char.toNat

/-- Number of newline bytes in a byte sequence. -/
def countNl : List Nat → Nat
  | [] => 0
  | b :: r => (if b = 10 then 1 else 0) + countNl r

/-- Fieldwise sum of two statistics records. -/
def addStats (a b : Stats) : Stats :=
  ⟨a.FileCount + b.FileCount, a.TotalLines + b.TotalLines,
   a.CodeLines + b.CodeLines, a.BlankLines + b.BlankLines,
   a.CommentLines + b.CommentLines⟩

/-- The C-style descriptor `cComments` (sloc.go line 88). -/
def cComments : Commenter := ⟨strBytes "//", strBytes "/*", strBytes "*/", false⟩

/-- A C-style descriptor with nested block comments honored. -/
def cCommentsNest : Commenter := ⟨strBytes "//", strBytes "/*", strBytes "*/", true⟩

/-- The shell-style descriptor `shComments` (sloc.go line 90): line marker
`#`, block markers the one-byte NUL sentinel. -/
def shComments : Commenter := ⟨[35], [0], [0], false⟩

/-- The descriptor `noComments` (sloc.go line 86): every marker is the
one-byte NUL sentinel. -/
def noComments : Commenter := ⟨[0], [0], [0], false⟩

/-- A descriptor whose line marker `ab` has a repeated first byte relative
to the input, used for the no-restart matching behavior. -/
def abComments : Commenter := ⟨strBytes "ab", [0], [0], false⟩

/-- One row of the report, mirroring `type LResult struct`; the language
name is kept as its byte sequence. -/
structure LResult where
  Name : List Nat
  FileCount : Nat
  CodeLines : Nat
  CommentLines : Nat
  BlankLines : Nat
  TotalLines : Nat
deriving DecidableEq, Repr

/-- Go's `<` on strings: lexicographic byte-wise comparison, a strict
prefix being smaller. -/
def goStringLt : List Nat → List Nat → Bool
  | [], [] => false
  | [], _ :: _ => true
  | _ :: _, [] => false
  | a :: as, b :: bs => if a < b then true else if b < a then false else goStringLt as bs

/-- Go's `>` on strings. -/
def goStringGt (a b : List Nat) : Bool := goStringLt b a

/-- Sort-order row list, mirroring `type LData []LResult`. -/
def LData := List LResult

/-- Default row used to totalize index access. -/
def dfltR : LResult := ⟨[], 0, 0, 0, 0, 0⟩

/-- `LData.Less` (sloc.go lines 291-296): rows compare by code-line count
descending, ties broken by name descending. -/
def LData.Less (d : LData) (i j : Nat) : Bool :=
  if (List.getD d i dfltR).CodeLines = (List.getD d j dfltR).CodeLines then
    goStringGt (List.getD d i dfltR).Name (List.getD d j dfltR).Name
  else
    decide ((List.getD d j dfltR).CodeLines < (List.getD d i dfltR).CodeLines)

/-! ### Step-level statistics lemmas -/

/-- Each step adds one to the total exactly when the byte is a newline. -/
theorem step_total (l : Commenter) (st : ScanState × Stats) (b : Nat) :
    (step l st b).2.TotalLines = st.2.TotalLines + (if b = 10 then 1 else 0) := by
  by_cases hb : b = 10
  · subst hb; simp only [step]; split_ifs <;> simp
  · simp [step, hb]

/-- A non-newline byte leaves the statistics untouched. -/
theorem step_stats_const (l : Commenter) (st : ScanState × Stats) (b : Nat) (hb : b ≠ 10) :
    (step l st b).2 = st.2 := by
  simp [step, hb]

/-- Each step adds to the three category counters together exactly what it
adds to the total. -/
theorem step_sum (l : Commenter) (st : ScanState × Stats) (b : Nat) :
    (step l st b).2.CodeLines + (step l st b).2.CommentLines + (step l st b).2.BlankLines
      + st.2.TotalLines
      = (step l st b).2.TotalLines
      + (st.2.CodeLines + st.2.CommentLines + st.2.BlankLines) := by
  by_cases hb : b = 10
  · subst hb; simp only [step]; split_ifs <;> simp <;> omega
  · simp only [step_stats_const l st b hb]; omega

/-! ### Scan-level lemmas -/

/-- The total after a scan is the total before plus the number of newline
bytes in the input. -/
theorem scan_total (l : Commenter) (c : List Nat) (st : ScanState × Stats) :
    (scan l c st).2.TotalLines = st.2.TotalLines + countNl c := by
  induction c generalizing st with
  | nil => simp [scan, countNl]
  | cons b r ih =>
      have h1 : scan l (b :: r) st = scan l r (step l st b) := rfl
      rw [h1, ih, step_total]
      simp only [countNl]
      omega

/-- A scan adds to the three category counters together exactly what it
adds to the total. -/
theorem scan_sum (l : Commenter) (c : List Nat) (st : ScanState × Stats) :
    (scan l c st).2.CodeLines + (scan l c st).2.CommentLines + (scan l c st).2.BlankLines
      + st.2.TotalLines
      = (scan l c st).2.TotalLines
      + (st.2.CodeLines + st.2.CommentLines + st.2.BlankLines) := by
  induction c generalizing st with
  | nil => simp only [scan, List.foldl_nil]; omega
  | cons b r ih =>
      have h1 : scan l (b :: r) st = scan l r (step l st b) := rfl
      have h2 := ih (step l st b)
      have h3 := step_sum l st b
      rw [h1]
      omega

/-! ### Additivity: the statistics delta of a scan is independent of the
incoming statistics -/

/-- One step on statistics shifted by `u` equals the unshifted step with
its statistics shifted by `u`. -/
theorem step_add2 (l : Commenter) (s : ScanState) (t u : Stats) (b : Nat) :
    step l (s, addStats u t) b = ((step l (s, t) b).1, addStats u (step l (s, t) b).2) := by
  by_cases hb : b = 10
  · subst hb
    simp only [step]
    split_ifs <;> simp [addStats, Stats.mk.injEq] <;> omega
  · simp [step, hb]

/-- A scan on statistics shifted by `u` equals the unshifted scan with its
statistics shifted by `u`. -/
theorem scan_add2 (l : Commenter) (c : List Nat) (s : ScanState) (t u : Stats) :
    scan l c (s, addStats u t) = ((scan l c (s, t)).1, addStats u (scan l c (s, t)).2) := by
  induction c generalizing s t with
  | nil => rfl
  | cons b r ih =>
      calc scan l (b :: r) (s, addStats u t)
          = scan l r (step l (s, addStats u t) b) := rfl
        _ = scan l r ((step l (s, t) b).1, addStats u (step l (s, t) b).2) := by
              rw [step_add2]
        _ = ((scan l r ((step l (s, t) b).1, (step l (s, t) b).2)).1,
              addStats u (scan l r ((step l (s, t) b).1, (step l (s, t) b).2)).2) :=
              ih (step l (s, t) b).1 (step l (s, t) b).2
        _ = ((scan l (b :: r) (s, t)).1, addStats u (scan l (b :: r) (s, t)).2) := rfl

/-- `Update` produces a pure delta: the result on arbitrary prior
statistics is the prior plus the result on zero statistics. -/
theorem update_add (l : Commenter) (c : List Nat) (s : Stats) :
    Update l c s = addStats s (Update l c stats0) := by
  have h : { s with FileCount := s.FileCount + 1 }
      = addStats s { stats0 with FileCount := stats0.FileCount + 1 } := by
    simp [addStats, stats0]
  unfold Update
  rw [h, scan_add2]

/-! ### Matcher-level lemmas -/

/-- A byte that differs from the expected marker byte resets the
line-comment cursor to 0. -/
theorem newLp_reset (l : Commenter) (s : ScanState) (b : Nat)
    (h : l.LineComment.get? s.lp ≠ some b) : newLp l s b = 0 := by
  unfold newLp
  exact if_neg (fun hh => h hh.2)

/-- A byte that differs from the expected marker byte resets the
block-start cursor to 0. -/
theorem newSp_reset (l : Commenter) (s : ScanState) (b : Nat)
    (h : l.StartComment.get? s.sp ≠ some b) : newSp l s b = 0 := by
  unfold newSp
  exact if_neg (fun hh => h hh.2)

/-- A byte that differs from the expected marker byte resets the
block-end cursor to 0. -/
theorem newEp_reset (l : Commenter) (s : ScanState) (b : Nat)
    (h : l.EndComment.get? s.ep ≠ some b) : newEp l s b = 0 := by
  unfold newEp
  exact if_neg (fun hh => h hh.2.2)

/-- Once inside a line comment, the matchers never clear the flag; only
line finalization does. -/
theorem newInL_keeps (l : Commenter) (s : ScanState) (b : Nat)
    (h : s.inLComment = true) : newInL l s b = true := by
  unfold newInL
  split_ifs <;> simp [h]

/-- While the block depth is positive, the line-comment matcher is
inactive: its cursor resets and the flag is unchanged. -/
theorem newLp_blocked (l : Commenter) (s : ScanState) (b : Nat)
    (h : 0 < s.inComment) : newLp l s b = 0 ∧ newInL l s b = s.inLComment := by
  have hno : ¬ lineHit l s b := by
    intro hh
    rw [hh.1] at h
    omega
  constructor
  · simp [newLp, hno]
  · simp [newInL, hno]

/-- While the block depth is zero, the line-comment cursor advances on a
matching byte (wrapping to 0 on a completed match). -/
theorem newLp_advances (l : Commenter) (s : ScanState) (b : Nat)
    (h0 : s.inComment = 0) (h : l.LineComment.get? s.lp = some b) :
    newLp l s b = (if s.lp + 1 = l.LineComment.length then 0 else s.lp + 1)
      ∧ (s.lp + 1 = l.LineComment.length → newInL l s b = true) := by
  have hh : lineHit l s b := ⟨h0, h⟩
  constructor
  · simp [newLp, hh]
  · intro hc; simp [newInL, hh, hc]

/-- The scan-state fields other than `inLComment` and `blank` pass from
the matchers through line finalization unchanged. -/
theorem step_scanstate (l : Commenter) (st : ScanState × Stats) (b : Nat) :
    (step l st b).1.inComment = (matcherStep l st.1 b).inComment ∧
    (step l st b).1.lp = (matcherStep l st.1 b).lp ∧
    (step l st b).1.sp = (matcherStep l st.1 b).sp ∧
    (step l st b).1.ep = (matcherStep l st.1 b).ep := by
  by_cases hb : b = 10
  · subst hb; simp only [step]; split_ifs <;> simp
  · simp [step, hb]

/-! ### Cursor bounds -/

/-- The line-comment cursor stays below the marker length after any byte,
for a non-empty marker. -/
theorem newLp_lt (l : Commenter) (s : ScanState) (b : Nat)
    (hl : 0 < l.LineComment.length) : newLp l s b < l.LineComment.length := by
  unfold newLp
  split_ifs with h1 h2
  · exact hl
  · have hlt : s.lp < l.LineComment.length := by
      have := h1.2
      rw [List.get?_eq_some] at this
      exact this.1
    omega
  · exact hl

/-- The block-start cursor stays below the marker length after any byte,
for a non-empty marker. -/
theorem newSp_lt (l : Commenter) (s : ScanState) (b : Nat)
    (hl : 0 < l.StartComment.length) : newSp l s b < l.StartComment.length := by
  unfold newSp
  split_ifs with h1 h2
  · exact hl
  · have hlt : s.sp < l.StartComment.length := by
      have := h1.2
      rw [List.get?_eq_some] at this
      exact this.1
    omega
  · exact hl

/-- The block-end cursor stays below the marker length after any byte,
for a non-empty marker. -/
theorem newEp_lt (l : Commenter) (s : ScanState) (b : Nat)
    (hl : 0 < l.EndComment.length) : newEp l s b < l.EndComment.length := by
  unfold newEp
  split_ifs with h1 h2
  · exact hl
  · have hlt : s.ep < l.EndComment.length := by
      have := h1.2.2
      rw [List.get?_eq_some] at this
      exact this.1
    omega
  · exact hl

/-- All three cursors stay in bounds across one full loop iteration. -/
theorem step_cursor_bounds (l : Commenter) (st : ScanState × Stats) (b : Nat)
    (hl : 0 < l.LineComment.length) (hs : 0 < l.StartComment.length)
    (he : 0 < l.EndComment.length) :
    (step l st b).1.lp < l.LineComment.length ∧
    (step l st b).1.sp < l.StartComment.length ∧
    (step l st b).1.ep < l.EndComment.length := by
  obtain ⟨-, h2, h3, h4⟩ := step_scanstate l st b
  rw [h2, h3, h4]
  exact ⟨newLp_lt l st.1 b hl, newSp_lt l st.1 b hs, newEp_lt l st.1 b he⟩

/-- All three cursors stay in bounds across a whole scan started from
in-bounds cursors. -/
theorem scan_cursor_bounds (l : Commenter) (c : List Nat)
    (hl : 0 < l.LineComment.length) (hs : 0 < l.StartComment.length)
    (he : 0 < l.EndComment.length) :
    ∀ st : ScanState × Stats,
      st.1.lp < l.LineComment.length → st.1.sp < l.StartComment.length →
      st.1.ep < l.EndComment.length →
      (scan l c st).1.lp < l.LineComment.length ∧
      (scan l c st).1.sp < l.StartComment.length ∧
      (scan l c st).1.ep < l.EndComment.length := by
  induction c with
  | nil => intro st h1 h2 h3; exact ⟨h1, h2, h3⟩
  | cons b r ih =>
      intro st h1 h2 h3
      obtain ⟨g1, g2, g3⟩ := step_cursor_bounds l st b hl hs he
      exact ih (step l st b) g1 g2 g3

/-! ### Newline preservation of the block depth -/

/-- When neither block marker contains a newline byte, processing a
newline leaves the block depth unchanged through the matchers. -/
theorem matcherStep_ic_nl (l : Commenter) (s : ScanState)
    (hs : (10 : Nat) ∉ l.StartComment) (he : (10 : Nat) ∉ l.EndComment) :
    (matcherStep l s 10).inComment = s.inComment := by
  have h1 : l.StartComment.get? s.sp ≠ some 10 := fun h => hs (List.get?_mem h)
  have h2 : l.EndComment.get? s.ep ≠ some 10 := fun h => he (List.get?_mem h)
  have hic : icAfterStart l s 10 = s.inComment := by
    unfold icAfterStart
    exact if_neg (fun hh => h1 hh.1.2)
  show newIc l s 10 = s.inComment
  unfold newIc
  rw [if_neg (fun hh => h2 hh.1.2.2), hic]

/-! ### Self-cancelling block markers (the NUL sentinel pair) -/

/-- With both block markers the one-byte NUL sentinel and the block
matchers' state at rest, one byte of the matchers returns the block
matchers' state to rest: a NUL opens and closes the block in one step. -/
theorem matcherStep_shell (l : Commenter) (hs : l.StartComment = [0])
    (he : l.EndComment = [0]) (s : ScanState) (b : Nat)
    (h1 : s.inComment = 0) (h2 : s.sp = 0) (h3 : s.ep = 0) :
    (matcherStep l s b).inComment = 0 ∧ (matcherStep l s b).sp = 0 ∧
    (matcherStep l s b).ep = 0 := by
  by_cases hsh : startHit l s b
  · have hb : b = 0 := by
      have hh := hsh.2
      rw [hs, h2] at hh
      simp at hh
      omega
    have hic : icAfterStart l s b = 1 := by
      unfold icAfterStart
      rw [if_pos ⟨hsh, by rw [hs, h2]; rfl⟩, h1]
      simp
    have heh : endHit l s b := by
      refine ⟨hsh.1, ?_, ?_⟩
      · rw [hic]; omega
      · rw [he, h3, hb]; rfl
    refine ⟨?_, ?_, ?_⟩
    · show newIc l s b = 0
      unfold newIc
      rw [if_pos ⟨heh, by rw [he, h3]; rfl⟩, hic]
      simp
    · show newSp l s b = 0
      unfold newSp
      rw [if_pos hsh, if_pos (by rw [hs, h2]; rfl)]
    · show newEp l s b = 0
      unfold newEp
      rw [if_pos heh, if_pos (by rw [he, h3]; rfl)]
  · have hic : icAfterStart l s b = s.inComment := by
      unfold icAfterStart
      exact if_neg (fun hh => hsh hh.1)
    have heh : ¬ endHit l s b := by
      intro hh
      have := hh.2.1
      rw [hic, h1] at this
      omega
    refine ⟨?_, ?_, ?_⟩
    · show newIc l s b = 0
      unfold newIc
      rw [if_neg (fun hh => heh hh.1), hic, h1]
    · show newSp l s b = 0
      unfold newSp
      exact if_neg hsh
    · show newEp l s b = 0
      unfold newEp
      exact if_neg heh

/-- With both block markers the NUL sentinel, a scan from rest block state
ends every byte, and hence every line, with block depth zero. -/
theorem scan_shell (l : Commenter) (hs : l.StartComment = [0])
    (he : l.EndComment = [0]) :
    ∀ (c : List Nat) (st : ScanState × Stats),
      st.1.inComment = 0 → st.1.sp = 0 → st.1.ep = 0 →
      (scan l c st).1.inComment = 0 ∧ (scan l c st).1.sp = 0 ∧
      (scan l c st).1.ep = 0 := by
  intro c
  induction c with
  | nil => intro st h1 h2 h3; exact ⟨h1, h2, h3⟩
  | cons b r ih =>
      intro st h1 h2 h3
      obtain ⟨m1, m2, m3⟩ := matcherStep_shell l hs he st.1 b h1 h2 h3
      obtain ⟨p1, p2, p3, p4⟩ := step_scanstate l st b
      exact ih (step l st b) (p1.trans m1) (p3.trans m2) (p4.trans m3)

/-! ### Line finalization checks comment state first -/

/-- When the scan is inside a block or line comment as the newline is
processed, the line counts as comment: the comment counter gains one and
the code and blank counters are unchanged. -/
theorem step_comment_first (l : Commenter) (st : ScanState × Stats)
    (h : 0 < (matcherStep l st.1 10).inComment ∨ (matcherStep l st.1 10).inLComment = true) :
    (step l st 10).2.CommentLines = st.2.CommentLines + 1 ∧
    (step l st 10).2.CodeLines = st.2.CodeLines ∧
    (step l st 10).2.BlankLines = st.2.BlankLines ∧
    (step l st 10).2.TotalLines = st.2.TotalLines + 1 := by
  simp only [step]
  split_ifs with h1 h2 h3 <;> simp_all

/-- A byte that does not complete the line-comment guard leaves the
line-comment flag unchanged. -/
theorem newInL_reset (l : Commenter) (s : ScanState) (b : Nat)
    (h : ¬ lineHit l s b) : newInL l s b = s.inLComment := by
  unfold newInL
  exact if_neg h

/-- The one-byte NUL marker never yields a non-NUL byte at any cursor. -/
theorem nulGet (m : List Nat) (hm : m = [0]) (n b : Nat) (hb : b ≠ 0) :
    m.get? n ≠ some b := by
  subst hm
  cases n with
  | zero =>
      intro h
      simp at h
      omega
  | succ k => simp

/-- `goStringLt` is exactly the standard lexicographic strict order on
byte lists. -/
theorem goStringLt_iff_lex : ∀ a b : List Nat, goStringLt a b = true ↔ List.Lex (· < ·) a b := by
  intro a
  induction a with
  | nil =>
      intro b
      cases b with
      | nil => simp [goStringLt]
      | cons y ys => simp [goStringLt]; exact List.Lex.nil
  | cons x xs ih =>
      intro b
      cases b with
      | nil => simp [goStringLt]
      | cons y ys =>
          simp only [goStringLt]
          split_ifs with h1 h2
          · simp only [true_iff]
            exact List.Lex.rel h1
          · simp only [false_iff]
            intro h
            cases h with
            | rel hr => omega
            | cons hc => omega
          · have hxy : x = y := by omega
            subst hxy
            rw [ih ys]
            constructor
            · exact fun h => List.Lex.cons h
            · intro h
              cases h with
              | rel hr => omega
              | cons hc => exact hc

/-! ## Claims -/

/-- C1: for every input, every descriptor and every prior statistics
record, one classification adds to the code, comment and blank counters
together exactly what it adds to the total: each finalized line lands in
exactly one of the three categories. -/
theorem claim1_partition (l : Commenter) (c : List Nat) (s : Stats) :
    (Update l c s).CodeLines + (Update l c s).CommentLines + (Update l c s).BlankLines
      + s.TotalLines
      = (Update l c s).TotalLines + (s.CodeLines + s.CommentLines + s.BlankLines) := by
  have h := scan_sum l c (initState, { s with FileCount := s.FileCount + 1 })
  simpa [Update] using h

/-- C2: the line-comment flag, once set, survives every further byte of
the line; at finalization the comment state is checked before the blank
and code cases, so such a line counts as exactly one comment line and no
code line; on `int x = 1; // note` the classification is one comment
line, zero code lines. -/
theorem claim2_comment_precedence :
    (∀ (l : Commenter) (s : ScanState) (b : Nat), s.inLComment = true →
       (matcherStep l s b).inLComment = true) ∧
    (∀ (l : Commenter) (st : ScanState × Stats),
       0 < (matcherStep l st.1 10).inComment ∨ (matcherStep l st.1 10).inLComment = true →
       (step l st 10).2.CommentLines = st.2.CommentLines + 1 ∧
       (step l st 10).2.CodeLines = st.2.CodeLines ∧
       (step l st 10).2.BlankLines = st.2.BlankLines ∧
       (step l st 10).2.TotalLines = st.2.TotalLines + 1) ∧
    Update cComments (strBytes "int x = 1; // note\n") stats0 = ⟨1, 1, 0, 0, 1⟩ :=
  ⟨fun l s b h => newInL_keeps l s b h,
   fun l st h => step_comment_first l st h,
   by decide⟩

/-- C2 witness: the precedence theorem applied at a concrete in-comment
state and the persistence part at a concrete flagged state. -/
theorem claim2_precedence_w :
    (matcherStep cComments ⟨0, true, false, 0, 0, 0⟩ 120).inLComment = true ∧
    (step cComments (⟨1, false, false, 0, 0, 0⟩, stats0) 10).2.CommentLines
      = stats0.CommentLines + 1 :=
  ⟨claim2_comment_precedence.1 cComments ⟨0, true, false, 0, 0, 0⟩ 120 (by decide),
   (claim2_comment_precedence.2.1 cComments (⟨1, false, false, 0, 0, 0⟩, stats0)
     (by decide)).1⟩

/-- C3: the total grows by exactly the number of newline bytes of the
input; statistics never change on a non-newline byte, so a trailing
partial line contributes to no counter; a zero-byte input only bumps the
file count, leaving all four line counters as they were. -/
theorem claim3_newline_only :
    (∀ (l : Commenter) (c : List Nat) (s : Stats),
       (Update l c s).TotalLines = s.TotalLines + countNl c) ∧
    (∀ (l : Commenter) (s : Stats),
       Update l [] s = { s with FileCount := s.FileCount + 1 }) ∧
    (∀ (l : Commenter) (st : ScanState × Stats) (b : Nat), b ≠ 10 →
       (step l st b).2 = st.2) ∧
    (∀ (l : Commenter) (c : List Nat) (s : Stats),
       (Update l c s).CodeLines + (Update l c s).CommentLines + (Update l c s).BlankLines
         = s.CodeLines + s.CommentLines + s.BlankLines + countNl c) := by
  refine ⟨?_, fun l s => rfl, fun l st b hb => step_stats_const l st b hb, ?_⟩
  · intro l c s
    have h := scan_total l c (initState, { s with FileCount := s.FileCount + 1 })
    simpa [Update] using h
  · intro l c s
    have h1 := scan_sum l c (initState, { s with FileCount := s.FileCount + 1 })
    have h2 := scan_total l c (initState, { s with FileCount := s.FileCount + 1 })
    simp only [Update] at *
    omega

/-- C3 witness: a concrete non-newline byte leaves the statistics of a
concrete state untouched. -/
theorem claim3_newline_only_w : (step cComments (initState, stats0) 97).2 = stats0 :=
  claim3_newline_only.2.2.1 cComments (initState, stats0) 97 (by decide)

/-- C4: on a byte that differs from the expected marker byte each of the
three cursors resets to 0 with no restart scanning; consequently the
marker `ab`, though present as a substring of the line `aab`, is never
matched: the line `aab` counts as code, not comment. -/
theorem claim4_no_restart :
    (∀ (l : Commenter) (s : ScanState) (b : Nat),
       l.LineComment.get? s.lp ≠ some b → newLp l s b = 0) ∧
    (∀ (l : Commenter) (s : ScanState) (b : Nat),
       l.StartComment.get? s.sp ≠ some b → newSp l s b = 0) ∧
    (∀ (l : Commenter) (s : ScanState) (b : Nat),
       l.EndComment.get? s.ep ≠ some b → newEp l s b = 0) ∧
    List.IsInfix (strBytes "ab") (strBytes "aab") ∧
    Update abComments (strBytes "aab\n") stats0 = ⟨1, 1, 1, 0, 0⟩ :=
  ⟨newLp_reset, newSp_reset, newEp_reset, ⟨[97], [], by decide⟩, by decide⟩

/-- C4 witness: the reset parts applied at a concrete state and byte. -/
theorem claim4_no_restart_w :
    newLp abComments ⟨0, false, true, 1, 0, 0⟩ 97 = 0 ∧
    newSp abComments initState 98 = 0 ∧
    newEp abComments initState 98 = 0 :=
  ⟨claim4_no_restart.1 abComments ⟨0, false, true, 1, 0, 0⟩ 97 (by decide),
   claim4_no_restart.2.1 abComments initState 98 (by decide),
   claim4_no_restart.2.2.1 abComments initState 98 (by decide)⟩

/-- C5 counterexample: after `//` the scan is inside a line comment with
the cursor at 0, and the next `/` advances the cursor to 1 although
`in_line_comment` is true; conversely after `/*` the next `/` matches the
marker head while `in_line_comment` is false, yet the cursor stays 0
because the block depth is positive.  The gate is the block depth, not
the line-comment flag. -/
theorem claim5_gate_cex :
    (scan cComments (strBytes "//") (initState, stats0)).1.inLComment = true ∧
    (scan cComments (strBytes "//") (initState, stats0)).1.lp = 0 ∧
    (scan cComments (strBytes "///") (initState, stats0)).1.inLComment = true ∧
    (scan cComments (strBytes "///") (initState, stats0)).1.lp = 1 ∧
    (scan cComments (strBytes "/*") (initState, stats0)).1.inLComment = false ∧
    (scan cComments (strBytes "/*") (initState, stats0)).1.lp = 0 ∧
    cComments.LineComment.get? 0 = some 47 ∧
    (scan cComments (strBytes "/*/") (initState, stats0)).1.lp = 0 := by
  decide

/-- C5 amended: the line-comment matcher is active exactly while the
block depth is zero — while `inComment > 0` its cursor resets and the
flag is untouched, and while `inComment = 0` a matching byte advances the
cursor (completing the marker sets the flag) and a mismatch resets it,
regardless of `in_line_comment`. -/
theorem claim5_gate_amended :
    (∀ (l : Commenter) (s : ScanState) (b : Nat), 0 < s.inComment →
       newLp l s b = 0 ∧ newInL l s b = s.inLComment) ∧
    (∀ (l : Commenter) (s : ScanState) (b : Nat), s.inComment = 0 →
       l.LineComment.get? s.lp = some b →
       newLp l s b = (if s.lp + 1 = l.LineComment.length then 0 else s.lp + 1) ∧
       (s.lp + 1 = l.LineComment.length → newInL l s b = true)) ∧
    (∀ (l : Commenter) (s : ScanState) (b : Nat), s.inComment = 0 →
       l.LineComment.get? s.lp ≠ some b → newLp l s b = 0) :=
  ⟨fun l s b h => newLp_blocked l s b h,
   fun l s b h0 h => newLp_advances l s b h0 h,
   fun l s b _ h => newLp_reset l s b h⟩

/-- C5 witness: the amended theorem applied at concrete states covering a
blocked advance, a real advance while the flag is set, and a reset. -/
theorem claim5_gate_w :
    (newLp cComments ⟨1, false, false, 0, 0, 0⟩ 47 = 0 ∧
      newInL cComments ⟨1, false, false, 0, 0, 0⟩ 47 = false) ∧
    newLp cComments ⟨0, true, false, 0, 0, 0⟩ 47
      = (if 0 + 1 = cComments.LineComment.length then 0 else 0 + 1) ∧
    newLp cComments ⟨0, false, false, 0, 0, 0⟩ 42 = 0 :=
  ⟨claim5_gate_amended.1 cComments ⟨1, false, false, 0, 0, 0⟩ 47 (by decide),
   (claim5_gate_amended.2.1 cComments ⟨0, true, false, 0, 0, 0⟩ 47 (by decide) (by decide)).1,
   claim5_gate_amended.2.2 cComments ⟨0, false, false, 0, 0, 0⟩ 42 (by decide) (by decide)⟩

/-- C6 counterexample: the "absent" sentinel is the single NUL byte, and
it does match a NUL in the input: under `noComments` (all markers
sentinel) the input NUL, newline completes the line marker and the line
is classified as a comment line. -/
theorem claim6_sentinel_cex :
    noComments.LineComment = [0] ∧
    (matcherStep noComments initState 0).inLComment = true ∧
    Update noComments [0, 10] stats0 = ⟨1, 1, 0, 0, 1⟩ := by
  decide

/-- C6 amended: on inputs free of NUL bytes a sentinel marker never
completes a match, so the corresponding matcher never fires; and for a
language with both block markers absent (shell-style) the block depth is
back to zero after every byte of any input — a NUL opens and closes the
block in the same step — so no line is ever classified from block state. -/
theorem claim6_sentinel_amended :
    (∀ (l : Commenter) (s : ScanState) (b : Nat), l.LineComment = [0] → b ≠ 0 →
       newLp l s b = 0 ∧ newInL l s b = s.inLComment) ∧
    (∀ (l : Commenter) (s : ScanState) (b : Nat),
       l.StartComment = [0] → l.EndComment = [0] → b ≠ 0 →
       newSp l s b = 0 ∧ newEp l s b = 0 ∧ newIc l s b = s.inComment) ∧
    (∀ (l : Commenter) (c : List Nat) (st : ScanState × Stats),
       l.StartComment = [0] → l.EndComment = [0] →
       st.1.inComment = 0 → st.1.sp = 0 → st.1.ep = 0 →
       (scan l c st).1.inComment = 0) := by
  refine ⟨?_, ?_, ?_⟩
  · intro l s b hl hb
    have hg : l.LineComment.get? s.lp ≠ some b := nulGet _ hl s.lp b hb
    exact ⟨newLp_reset l s b hg, newInL_reset l s b (fun hh => hg hh.2)⟩
  · intro l s b hs he hb
    have hgs : l.StartComment.get? s.sp ≠ some b := nulGet _ hs s.sp b hb
    have hge : l.EndComment.get? s.ep ≠ some b := nulGet _ he s.ep b hb
    have hic : icAfterStart l s b = s.inComment := by
      unfold icAfterStart
      exact if_neg (fun hh => hgs hh.1.2)
    refine ⟨newSp_reset l s b hgs, newEp_reset l s b hge, ?_⟩
    unfold newIc
    rw [if_neg (fun hh => hge hh.1.2.2), hic]
  · intro l c st hs he h1 h2 h3
    exact (scan_shell l hs he c st h1 h2 h3).1

/-- C6 witness: the amended theorem applied to a concrete non-NUL byte
under `noComments` and `shComments`, and to a concrete input containing a
NUL under `shComments`. -/
theorem claim6_sentinel_w :
    (newLp noComments initState 97 = 0 ∧ newInL noComments initState 97 = initState.inLComment) ∧
    (newSp shComments initState 97 = 0 ∧ newEp shComments initState 97 = 0 ∧
      newIc shComments initState 97 = initState.inComment) ∧
    (scan shComments [0, 35, 10] (initState, stats0)).1.inComment = 0 :=
  ⟨claim6_sentinel_amended.1 noComments initState 97 (by decide) (by decide),
   claim6_sentinel_amended.2.1 shComments initState 97 (by decide) (by decide) (by decide),
   claim6_sentinel_amended.2.2 shComments [0, 35, 10] (initState, stats0)
     (by decide) (by decide) (by decide) (by decide) (by decide)⟩

/-- C7: on `/* a /* b */ c */\ncode\n` with C-style markers, a nesting
descriptor takes the depth through 1, 2, 1, 0 — still open after the
inner `*/`, closing only at the outer one — while a non-nesting
descriptor clamps the second `/*` and closes at the first `*/`; in both
cases the `code` line is classified as code (both lines are code,
no comment lines). -/
theorem claim7_nesting :
    (scan cCommentsNest (strBytes "/*") (initState, stats0)).1.inComment = 1 ∧
    (scan cCommentsNest (strBytes "/* a /*") (initState, stats0)).1.inComment = 2 ∧
    (scan cCommentsNest (strBytes "/* a /* b */") (initState, stats0)).1.inComment = 1 ∧
    (scan cCommentsNest (strBytes "/* a /* b */ c */") (initState, stats0)).1.inComment = 0 ∧
    (scan cComments (strBytes "/*") (initState, stats0)).1.inComment = 1 ∧
    (scan cComments (strBytes "/* a /*") (initState, stats0)).1.inComment = 1 ∧
    (scan cComments (strBytes "/* a /* b */") (initState, stats0)).1.inComment = 0 ∧
    Update cCommentsNest (strBytes "/* a /* b */ c */\ncode\n") stats0 = ⟨1, 2, 2, 0, 0⟩ ∧
    Update cComments (strBytes "/* a /* b */ c */\ncode\n") stats0 = ⟨1, 2, 2, 0, 0⟩ := by
  decide

/-- C8: the statistics delta of one classification is independent of the
prior totals and every scan starts from the fresh state with depth 0; a
newline byte never changes the depth when neither block marker contains a
newline, so depth persists across lines; with an unterminated `/*` every
finalized line from the opening through the end of input is comment. -/
theorem claim8_block_persistence :
    (∀ (l : Commenter) (c : List Nat) (s : Stats),
       Update l c s = addStats s (Update l c stats0)) ∧
    (∀ (l : Commenter) (st : ScanState × Stats),
       (10 : Nat) ∉ l.StartComment → (10 : Nat) ∉ l.EndComment →
       (step l st 10).1.inComment = st.1.inComment) ∧
    Update cComments (strBytes "/* x\na\nb\n") stats0 = ⟨1, 3, 0, 0, 3⟩ := by
  refine ⟨update_add, ?_, by decide⟩
  intro l st hs he
  rw [(step_scanstate l st 10).1]
  exact matcherStep_ic_nl l st.1 hs he

/-- C8 witness: a newline processed at depth 1 under the C descriptor
keeps depth 1. -/
theorem claim8_block_persistence_w :
    (step cComments ((⟨1, false, false, 0, 0, 0⟩ : ScanState), stats0) 10).1.inComment
      = (⟨1, false, false, 0, 0, 0⟩ : ScanState).inComment :=
  claim8_block_persistence.2.1 cComments (⟨1, false, false, 0, 0, 0⟩, stats0)
    (by decide) (by decide)

/-- C9: the report comparator orders rows by code-line count descending
and breaks ties by name descending, where the name order is the
lexicographic byte order (Go string comparison). -/
theorem claim9_sort_order (x y : LResult) :
    (x.CodeLines ≠ y.CodeLines →
       (LData.Less [x, y] 0 1 = true ↔ y.CodeLines < x.CodeLines)) ∧
    (x.CodeLines = y.CodeLines →
       LData.Less [x, y] 0 1 = goStringGt x.Name y.Name) ∧
    (goStringGt x.Name y.Name = true ↔ List.Lex (· < ·) y.Name x.Name) := by
  refine ⟨?_, ?_, goStringLt_iff_lex y.Name x.Name⟩
  · intro h
    simp [LData.Less, List.getD, h]
  · intro h
    simp [LData.Less, List.getD, h]

/-- C9 witness: the comparator theorem applied to two concrete rows with
distinct code counts and to two with equal code counts. -/
theorem claim9_sort_order_w :
    (LData.Less [⟨[97], 0, 5, 0, 0, 0⟩, ⟨[98], 0, 3, 0, 0, 0⟩] 0 1 = true ↔ (3 : Nat) < 5) ∧
    LData.Less [⟨[97], 0, 5, 0, 0, 0⟩, ⟨[98], 0, 5, 0, 0, 0⟩] 0 1 = goStringGt [97] [98] :=
  ⟨(claim9_sort_order ⟨[97], 0, 5, 0, 0, 0⟩ ⟨[98], 0, 3, 0, 0, 0⟩).1 (by decide),
   (claim9_sort_order ⟨[97], 0, 5, 0, 0, 0⟩ ⟨[98], 0, 5, 0, 0, 0⟩).2.1 (by decide)⟩

/-- C10: for a descriptor with non-empty marker strings, after scanning
any input from the initial state every partial-match cursor is strictly
below its marker's length, so the marker index expressions are always in
bounds. -/
theorem claim10_cursor_bounds (l : Commenter)
    (hl : 0 < l.LineComment.length) (hs : 0 < l.StartComment.length)
    (he : 0 < l.EndComment.length) (c : List Nat) (t : Stats) :
    (scan l c (initState, t)).1.lp < l.LineComment.length ∧
    (scan l c (initState, t)).1.sp < l.StartComment.length ∧
    (scan l c (initState, t)).1.ep < l.EndComment.length :=
  scan_cursor_bounds l c hl hs he (initState, t) hl hs he

/-- C10 witness: the bound theorem at the C descriptor on a concrete
input ending inside a partial marker. -/
theorem claim10_cursor_bounds_w :
    (scan cComments (strBytes "int /") (initState, stats0)).1.lp
        < cComments.LineComment.length ∧
    (scan cComments (strBytes "int /") (initState, stats0)).1.sp
        < cComments.StartComment.length ∧
    (scan cComments (strBytes "int /") (initState, stats0)).1.ep
        < cComments.EndComment.length :=
  claim10_cursor_bounds cComments (by decide) (by decide) (by decide)
    (strBytes "int /") stats0
